import Mathlib

/-!
Verification of the Colorwalk visual-similarity engine of the WanderMark
repository: a shallow embedding in Lean 4 of `backend/util/color-service.js`
(rgbToLab, buildColorVector, checkIsColorful, analyzeImageColor,
cosineSimilarity, adaptiveWeights) and of the places controller
(`createPlace` enrichment step, `searchByColor`), together with proofs of
the specified properties.

JavaScript numbers are modelled as real numbers; `Math.round` is the
round-half-up integer rounding; `null`/absent values are `Option`s;
the fallible search request returns `Except`.
-/

namespace Colorwalk

noncomputable section

/-- JavaScript `Math.round`: rounds to the nearest integer, halves toward
positive infinity. -/
def jsRound (x : ℝ) : ℤ := ⌊x + 1/2⌋

/-- `Math.round(v * 100) / 100` — rounding to two decimal places as used at
the end of `rgbToLab`. -/
def round2 (x : ℝ) : ℝ := (jsRound (x * 100) : ℝ) / 100

/-- The sRGB inverse-gamma linearization applied to each normalized channel
in `rgbToLab`: `c > 0.04045 ? Math.pow((c + 0.055) / 1.055, 2.4) : c / 12.92`. -/
def srgbLin (c : ℝ) : ℝ :=
  if 0.04045 < c then ((c + 0.055) / 1.055) ^ (2.4 : ℝ) else c / 12.92

/-- The CIE nonlinear compression in `rgbToLab`:
`t > 0.008856 ? Math.pow(t, 1 / 3) : 7.787 * t + 16 / 116`. -/
def labF (t : ℝ) : ℝ :=
  if 0.008856 < t then t ^ ((1 : ℝ) / 3) else 7.787 * t + 16 / 116

/-- `rgbToLab` from `color-service.js`: sRGB (0-255 channels) to CIELAB
under D65, each output component rounded to 2 decimal places. -/
def rgbToLab (r g b : ℝ) : ℝ × ℝ × ℝ :=
  let rr := srgbLin (r / 255)
  let gg := srgbLin (g / 255)
  let bb := srgbLin (b / 255)
  let x := (rr * 0.4124564 + gg * 0.3575761 + bb * 0.1804375) / 0.95047
  let y := (rr * 0.2126729 + gg * 0.7151522 + bb * 0.072175) / 1.0
  let z := (rr * 0.0193339 + gg * 0.119192 + bb * 0.9503041) / 1.08883
  let fx := labF x
  let fy := labF y
  let fz := labF z
  (round2 (116 * fy - 16), round2 (500 * (fx - fy)), round2 (200 * (fy - fz)))

/-- One dominant color as produced by `extractPalette`: hex string, integer
RGB triple, population weight. -/
structure Swatch where
  hex : String
  rgb : ℕ × ℕ × ℕ
  population : ℕ

/-- The padding triple `GRAY_LAB = [50, 0, 0]` of `buildColorVector`. -/
def GRAY_LAB : ℝ × ℝ × ℝ := (50, 0, 0)

/-- The per-swatch normalization step of `buildColorVector`:
`[L / 100, (a + 128) / 255, (b + 128) / 255]`. -/
def normalizeLab : ℝ × ℝ × ℝ → List ℝ
  | (L, a, b) => [L / 100, (a + 128) / 255, (b + 128) / 255]

/-- `buildColorVector` from `color-service.js`: Lab-convert each swatch, pad
with `GRAY_LAB` up to 5 triples, truncate to 5, and flatten with the
normalization map. -/
def buildColorVector (swatches : List Swatch) : List ℝ :=
  let labValues := swatches.map (fun s => rgbToLab s.rgb.1 s.rgb.2.1 s.rgb.2.2)
  let padded := labValues ++ List.replicate (5 - labValues.length) GRAY_LAB
  (padded.take 5).flatMap normalizeLab

/-- `checkIsColorful` from `color-service.js`: at least 2 swatches, top
population at least 10, and standard deviation of the 15-d vector at least
0.08. -/
def checkIsColorful (swatches : List Swatch) (colorVector : List ℝ) : Bool :=
  match swatches with
  | [] => false
  | s0 :: rest =>
    if (s0 :: rest).length < 2 then false
    else if s0.population < 10 then false
    else
      let mean := colorVector.sum / colorVector.length
      let variance :=
        ((colorVector.map (fun v => (v - mean) ^ 2)).sum : ℝ) / colorVector.length
      decide ((0.08 : ℝ) ≤ Real.sqrt variance)

/-- The non-null result object of `analyzeImageColor`: palette with Lab
triples attached, the 15-d vector, and the distinctiveness flag.
(`colorAnalyzedAt`, a wall-clock timestamp, is modelled as the unit value.) -/
structure ColorAnalysis where
  colorPalette : List (Swatch × (ℝ × ℝ × ℝ))
  colorVector : List ℝ
  isColorful : Bool

/-- `analyzeImageColor` from `color-service.js` as a function of the
palette-extraction outcome (`extractPalette` returns `null` on failure):
on `null` it returns `null`, otherwise it builds the Lab palette, the 15-d
vector and the distinctiveness flag together. -/
def analyzeImageColor (extracted : Option (List Swatch)) : Option ColorAnalysis :=
  match extracted with
  | none => none
  | some swatches =>
    let paletteWithLab := swatches.map (fun s => (s, rgbToLab s.rgb.1 s.rgb.2.1 s.rgb.2.2))
    let colorVector := buildColorVector swatches
    let isColorful := checkIsColorful swatches colorVector
    some { colorPalette := paletteWithLab, colorVector := colorVector, isColorful := isColorful }

/-- The dot product `vecA.reduce((sum, a, i) => sum + a * vecB[i], 0)` of
`cosineSimilarity` (the two vectors have equal length at this point). -/
def dotList (a b : List ℝ) : ℝ := (List.zipWith (fun x y => x * y) a b).sum

/-- The magnitude `Math.sqrt(vec.reduce((sum, a) => sum + a * a, 0))` of
`cosineSimilarity`. -/
def magList (a : List ℝ) : ℝ := Real.sqrt ((a.map (fun x => x * x)).sum)

/-- `cosineSimilarity` from `color-service.js`, on possibly-absent vectors:
0 when either vector is absent or the lengths differ or either magnitude is
zero, otherwise dot product over product of magnitudes. -/
def cosineSimilarity : Option (List ℝ) → Option (List ℝ) → ℝ
  | some vecA, some vecB =>
    if vecA.length ≠ vecB.length then 0
    else
      let dot := dotList vecA vecB
      let magA := magList vecA
      let magB := magList vecB
      if magA = 0 ∨ magB = 0 then 0 else dot / (magA * magB)
  | _, _ => 0

/-- `adaptiveWeights` from `color-service.js` on the tri-state `isColorful`
(`none` models JavaScript `null`): returns `(colorWeight, textWeight)`. -/
def adaptiveWeights : Option Bool → ℝ × ℝ
  | some true => (0.6, 0.4)
  | some false => (0.2, 0.8)
  | _ => (0.0, 1.0)

/-- The stored feature fields of a place document that the enrichment step
touches. Absent fields are `none`. -/
structure FeatureRecord where
  colorPalette : Option (List (Swatch × (ℝ × ℝ × ℝ)))
  colorVector : Option (List ℝ)
  isColorful : Option Bool
  colorAnalyzedAt : Option Unit
  textEmbedding : Option (List ℝ)

/-- The `updates` object built in `createPlace` after
`Promise.allSettled([analyzeImageColor ..., generateTextEmbedding ...])`:
the four color fields are assigned together exactly when color analysis
produced data, `textEmbedding` exactly when the embedding call produced
data. -/
def collectUpdates (colorResult : Option ColorAnalysis)
    (embeddingResult : Option (List ℝ)) : FeatureRecord :=
  { colorPalette := colorResult.map ColorAnalysis.colorPalette
    colorVector := colorResult.map ColorAnalysis.colorVector
    isColorful := colorResult.map ColorAnalysis.isColorful
    colorAnalyzedAt := colorResult.map (fun _ => ())
    textEmbedding := embeddingResult }

/-- One field of a `findByIdAndUpdate` partial update: a field present in
the update replaces the stored field, an absent one leaves it unchanged. -/
def setField {α : Type} (upd old : Option α) : Option α :=
  match upd with
  | some v => some v
  | none => old

/-- `Place.findByIdAndUpdate(id, updates)`: field-level partial update of
the stored record by the collected updates. -/
def applyUpdates (stored : FeatureRecord) (u : FeatureRecord) : FeatureRecord :=
  { colorPalette := setField u.colorPalette stored.colorPalette
    colorVector := setField u.colorVector stored.colorVector
    isColorful := setField u.isColorful stored.isColorful
    colorAnalyzedAt := setField u.colorAnalyzedAt stored.colorAnalyzedAt
    textEmbedding := setField u.textEmbedding stored.textEmbedding }

/-- The enrichment step of `createPlace` (the `setImmediate` body), as a
function of the settled outcomes of the two sub-extractions: collect only
successful results, and write to the store only when at least one pipeline
succeeded. -/
def enrich (stored : FeatureRecord) (colorResult : Option ColorAnalysis)
    (embeddingResult : Option (List ℝ)) : FeatureRecord :=
  let updates := collectUpdates colorResult embeddingResult
  if colorResult.isSome ∨ embeddingResult.isSome then applyUpdates stored updates
  else stored

/-- A candidate place fetched for `searchByColor`: the two stored vectors,
either possibly absent. -/
structure Candidate where
  colorVector : Option (List ℝ)
  textEmbedding : Option (List ℝ)

/-- `place.colorVector?.length > 0`: the field is present and non-empty. -/
def hasVec : Option (List ℝ) → Bool
  | some l => decide (0 < l.length)
  | none => false

/-- One scored candidate of `searchByColor`: the place, its hybrid score,
and the two score components. -/
structure ScoredCandidate where
  place : Candidate
  score : ℝ
  compColor : ℝ
  compText : ℝ

/-- The Step-4 scoring closure of `searchByColor`: each component is
computed only when its weight is positive and both sides supply the vector,
and contributes `weight * cosine` to the score. -/
def scoreCandidate (colorWeight textWeight : ℝ) (queryColorVec : Option (List ℝ))
    (queryTextEmbedding : Option (List ℝ)) (place : Candidate) : ScoredCandidate :=
  let colorCond := 0 < colorWeight ∧ queryColorVec.isSome ∧ hasVec place.colorVector
  let textCond := 0 < textWeight ∧ queryTextEmbedding.isSome ∧ hasVec place.textEmbedding
  let compColor := if colorCond then cosineSimilarity queryColorVec place.colorVector else 0
  let compText := if textCond then cosineSimilarity queryTextEmbedding place.textEmbedding else 0
  let score := (if colorCond then colorWeight * compColor else 0)
    + (if textCond then textWeight * compText else 0)
  { place := place, score := score, compColor := compColor, compText := compText }

/-- The descending-score comparator of `searchByColor`
(`.sort((a, b) => b.score - a.score)`, a stable sort in JavaScript). -/
def scoreDesc (a b : ScoredCandidate) : Bool := decide (b.score ≤ a.score)

/-- The request-level error of `searchByColor` when both query sub-extractions
fail. -/
def noUsableSignalMsg : String :=
  "Could not extract any features from the uploaded image. Try a clearer photo."

/-- `searchByColor` from the places controller, as a function of the settled
query-extraction outcomes and the fetched candidate list: fail when there is
no usable signal, otherwise score every candidate, filter by the threshold,
stable-sort descending by score, and truncate to the limit. `none` for
`threshold` or `limit` means the caller supplied none (defaults 0.4 and 10). -/
def searchByColor (queryColorData : Option ColorAnalysis)
    (queryTextEmbedding : Option (List ℝ)) (candidates : List Candidate)
    (threshold : Option ℝ) (limit : Option ℕ) :
    Except String (List ScoredCandidate) :=
  if queryColorData.isNone ∧ queryTextEmbedding.isNone then
    Except.error noUsableSignalMsg
  else
    let w := adaptiveWeights (queryColorData.map ColorAnalysis.isColorful)
    let th := threshold.getD 0.4
    let lim := limit.getD 10
    let scored := candidates.map
      (scoreCandidate w.1 w.2 (queryColorData.map ColorAnalysis.colorVector) queryTextEmbedding)
    Except.ok ((((scored.filter (fun s => decide (th ≤ s.score))).mergeSort scoreDesc).take lim))

/-- The record-level invariant of the spec: a feature record marked
colorful has a non-empty palette and a 15-element color vector. -/
def featureInvariant (rec : FeatureRecord) : Prop :=
  rec.isColorful = some true →
    (∃ p, rec.colorPalette = some p ∧ p ≠ [])
    ∧ (∃ v, rec.colorVector = some v ∧ v.length = 15)

/-- The sRGB inverse gamma exactly as the spec words it: linear at or below
the threshold 0.04045, power-law 2.4 above. -/
def gammaExpandSpec (c : ℝ) : ℝ :=
  if c ≤ 0.04045 then c / 12.92 else ((c + 0.055) / 1.055) ^ (2.4 : ℝ)

/-- The CIE nonlinear compression as the spec words it:
`f(t) = t^(1/3)` for `t > 0.008856`, else `7.787 t + 16/116`. -/
def cieFSpec (t : ℝ) : ℝ :=
  if 0.008856 < t then t ^ ((1 : ℝ) / 3) else 7.787 * t + 16 / 116

/-- The Color-Space Converter written from the spec text (section 4.1):
normalize channels, inverse gamma, fixed D65 matrix, D65 white point,
CIE compression, `L = 116 f(y) - 16`, `a = 500 (f(x) - f(y))`,
`b = 200 (f(y) - f(z))`, each rounded to 2 decimal places. -/
def rgbToLab_spec (r g b : ℝ) : ℝ × ℝ × ℝ :=
  let rl := gammaExpandSpec (r / 255)
  let gl := gammaExpandSpec (g / 255)
  let bl := gammaExpandSpec (b / 255)
  let X := 0.4124564 * rl + 0.3575761 * gl + 0.1804375 * bl
  let Y := 0.2126729 * rl + 0.7151522 * gl + 0.072175 * bl
  let Z := 0.0193339 * rl + 0.119192 * gl + 0.9503041 * bl
  let fx := cieFSpec (X / 0.95047)
  let fy := cieFSpec (Y / 1.0)
  let fz := cieFSpec (Z / 1.08883)
  (round2 (116 * fy - 16), round2 (500 * (fx - fy)), round2 (200 * (fy - fz)))

/-- The scored candidate list of Step 4 of `searchByColor`. -/
def scoredList (qc : Option ColorAnalysis) (qt : Option (List ℝ))
    (cands : List Candidate) : List ScoredCandidate :=
  cands.map (scoreCandidate (adaptiveWeights (qc.map ColorAnalysis.isColorful)).1
    (adaptiveWeights (qc.map ColorAnalysis.isColorful)).2
    (qc.map ColorAnalysis.colorVector) qt)

/-- The candidates surviving the threshold filter. -/
def keptList (qc : Option ColorAnalysis) (qt : Option (List ℝ))
    (cands : List Candidate) (th : ℝ) : List ScoredCandidate :=
  (scoredList qc qt cands).filter (fun s => decide (th ≤ s.score))

/-- The kept candidates in descending stable score order. -/
def rankedList (qc : Option ColorAnalysis) (qt : Option (List ℝ))
    (cands : List Candidate) (th : ℝ) : List ScoredCandidate :=
  (keptList qc qt cands th).mergeSort scoreDesc

/-- The scenario-A palette: a dominant red and a secondary blue swatch. -/
def scenarioASwatches : List Swatch :=
  [⟨"#ff0000", (255, 0, 0), 800⟩, ⟨"#0000ff", (0, 0, 255), 200⟩]

/-! ### Basic lemmas about the embedded functions -/

lemma cosineSimilarity_none_left (ob : Option (List ℝ)) : cosineSimilarity none ob = 0 := by
  cases ob <;> rfl

lemma cosineSimilarity_none_right (oa : Option (List ℝ)) : cosineSimilarity oa none = 0 := by
  cases oa <;> rfl

lemma magList_nil : magList [] = 0 := by
  simp [magList]

lemma cosineSimilarity_nil_right (oa : Option (List ℝ)) :
    cosineSimilarity oa (some []) = 0 := by
  cases oa with
  | none => rfl
  | some a =>
    cases a with
    | nil => simp [cosineSimilarity, magList_nil]
    | cons x xs => simp [cosineSimilarity]

lemma adaptiveWeights_nonneg (o : Option Bool) :
    0 ≤ (adaptiveWeights o).1 ∧ 0 ≤ (adaptiveWeights o).2 := by
  rcases o with _ | b
  · norm_num [adaptiveWeights]
  · cases b <;> norm_num [adaptiveWeights]

lemma cosineSimilarity_of_hasVec_false (oa : Option (List ℝ)) {v : Option (List ℝ)}
    (h : hasVec v = false) : cosineSimilarity oa v = 0 := by
  cases v with
  | none => exact cosineSimilarity_none_right oa
  | some l =>
    cases l with
    | nil => exact cosineSimilarity_nil_right oa
    | cons x xs => simp [hasVec] at h

/-- The score a candidate receives, rewritten as the weighted sum the spec
describes: the conditional component collapses because an absent or empty
vector makes the cosine 0 and a non-positive weight from the table is 0. -/
lemma scoreCandidate_eq (cw tw : ℝ) (hcw : 0 ≤ cw) (htw : 0 ≤ tw)
    (qc qt : Option (List ℝ)) (p : Candidate) :
    (scoreCandidate cw tw qc qt p).score
      = cw * cosineSimilarity qc p.colorVector + tw * cosineSimilarity qt p.textEmbedding := by
  show (if (0 < cw ∧ qc.isSome ∧ hasVec p.colorVector) then
      cw * (if (0 < cw ∧ qc.isSome ∧ hasVec p.colorVector) then
        cosineSimilarity qc p.colorVector else 0) else 0)
    + (if (0 < tw ∧ qt.isSome ∧ hasVec p.textEmbedding) then
      tw * (if (0 < tw ∧ qt.isSome ∧ hasVec p.textEmbedding) then
        cosineSimilarity qt p.textEmbedding else 0) else 0)
    = cw * cosineSimilarity qc p.colorVector + tw * cosineSimilarity qt p.textEmbedding
  have hterm : ∀ (w : ℝ), 0 ≤ w → ∀ (q v : Option (List ℝ)),
      (if (0 < w ∧ q.isSome ∧ hasVec v) then
        w * (if (0 < w ∧ q.isSome ∧ hasVec v) then cosineSimilarity q v else 0) else 0)
      = w * cosineSimilarity q v := by
    intro w hw q v
    by_cases h : (0 < w ∧ q.isSome ∧ hasVec v)
    · rw [if_pos h, if_pos h]
    · rw [if_neg h]
      rcases not_and_or.mp h with h1 | h23
      · have : w = 0 := le_antisymm (not_lt.mp h1) hw
        rw [this, zero_mul]
      · rcases not_and_or.mp h23 with h2 | h3
        · have : q = none := by
            cases q with
            | none => rfl
            | some l => simp at h2
          rw [this, cosineSimilarity_none_left, mul_zero]
        · rw [cosineSimilarity_of_hasVec_false q (Bool.not_eq_true _ ▸ eq_false_of_ne_true h3),
            mul_zero]
  rw [hterm cw hcw qc p.colorVector, hterm tw htw qt p.textEmbedding]

/-! ### C1: hybrid score formula and weight table -/

/-- C1: for every query feature record and candidate, the hybrid score
equals `colorWeight * colorCosine + textWeight * textCosine`, each cosine
component being 0 unless both sides supply the vector (this is built into
`cosineSimilarity` on optional vectors), and the adaptive weight table is
`(0.6, 0.4)` for a colorful query, `(0.2, 0.8)` for a non-colorful one,
`(0.0, 1.0)` for an unknown one, always summing to 1. -/
theorem searchByColor_hybrid_score :
    (∀ (queryColorData : Option ColorAnalysis) (queryTextEmbedding : Option (List ℝ))
      (place : Candidate),
      (scoreCandidate (adaptiveWeights (queryColorData.map ColorAnalysis.isColorful)).1
          (adaptiveWeights (queryColorData.map ColorAnalysis.isColorful)).2
          (queryColorData.map ColorAnalysis.colorVector) queryTextEmbedding place).score
        = (adaptiveWeights (queryColorData.map ColorAnalysis.isColorful)).1
            * cosineSimilarity (queryColorData.map ColorAnalysis.colorVector) place.colorVector
          + (adaptiveWeights (queryColorData.map ColorAnalysis.isColorful)).2
            * cosineSimilarity queryTextEmbedding place.textEmbedding)
    ∧ adaptiveWeights (some true) = (0.6, 0.4)
    ∧ adaptiveWeights (some false) = (0.2, 0.8)
    ∧ adaptiveWeights none = (0.0, 1.0)
    ∧ (∀ o : Option Bool, (adaptiveWeights o).1 + (adaptiveWeights o).2 = 1) := by
  refine ⟨?_, rfl, rfl, rfl, ?_⟩
  · intro qcd qt place
    exact scoreCandidate_eq _ _ (adaptiveWeights_nonneg _).1 (adaptiveWeights_nonneg _).2 _ _ _
  · intro o
    rcases o with _ | b
    · norm_num [adaptiveWeights]
    · cases b <;> norm_num [adaptiveWeights]

/-! ### C2: enrichment is a field-level partial update -/

/-- C2: the enrichment update contains exactly the fields of the successful
sub-extractions; applying it to a stored record is a field-level partial
update, so a record that already has `textEmbedding` keeps it when only
color extraction succeeds, and a present field is never replaced by
absence. -/
theorem enrich_partial_update :
    (∀ (stored : FeatureRecord) (ca : ColorAnalysis),
        (enrich stored (some ca) none).textEmbedding = stored.textEmbedding
      ∧ (enrich stored (some ca) none).colorVector = some ca.colorVector
      ∧ (enrich stored (some ca) none).isColorful = some ca.isColorful
      ∧ (enrich stored (some ca) none).colorPalette = some ca.colorPalette)
    ∧ (∀ (stored : FeatureRecord) (e : List ℝ),
        (enrich stored none (some e)).textEmbedding = some e
      ∧ (enrich stored none (some e)).colorVector = stored.colorVector
      ∧ (enrich stored none (some e)).isColorful = stored.isColorful
      ∧ (enrich stored none (some e)).colorPalette = stored.colorPalette)
    ∧ (∀ (cr : Option ColorAnalysis) (er : Option (List ℝ)),
        (collectUpdates cr er).colorVector.isSome = cr.isSome
      ∧ (collectUpdates cr er).isColorful.isSome = cr.isSome
      ∧ (collectUpdates cr er).colorPalette.isSome = cr.isSome
      ∧ (collectUpdates cr er).textEmbedding = er)
    ∧ (∀ (stored : FeatureRecord) (cr : Option ColorAnalysis) (er : Option (List ℝ)),
        (stored.textEmbedding.isSome → (enrich stored cr er).textEmbedding.isSome)
      ∧ (stored.colorVector.isSome → (enrich stored cr er).colorVector.isSome)
      ∧ (stored.isColorful.isSome → (enrich stored cr er).isColorful.isSome)
      ∧ (stored.colorPalette.isSome → (enrich stored cr er).colorPalette.isSome)) := by
  refine ⟨?_, ?_, ?_, ?_⟩
  · intro stored ca
    simp [enrich, collectUpdates, applyUpdates, setField]
  · intro stored e
    simp [enrich, collectUpdates, applyUpdates, setField]
  · intro cr er
    cases cr <;> simp [collectUpdates]
  · intro stored cr er
    by_cases h : cr.isSome ∨ er.isSome
    · cases cr <;> cases er <;>
        simp [enrich, collectUpdates, applyUpdates, setField] at h ⊢
    · push_neg at h
      have hc : cr = none := by
        cases cr with
        | none => rfl
        | some v => simp at h
      have he : er = none := by
        cases er with
        | none => rfl
        | some v => simp at h
      subst hc; subst he
      simp [enrich]

/-- Witness for C2: a stored record holding only a text embedding keeps it
present through an enrichment attempt. -/
theorem enrich_partial_update_witness :
    (enrich ⟨none, none, none, none, some [(1 : ℝ)]⟩ none (some [(2 : ℝ)])).textEmbedding.isSome := by
  exact (enrich_partial_update.2.2.2 ⟨none, none, none, none, some [(1 : ℝ)]⟩ none (some [2])).1
    (by simp)

/-! ### C7: no usable signal is a request-level error -/

/-- C7: when both query-time sub-extractions fail, `searchByColor` fails
with the no-usable-signal error and returns no candidate list; the error
outcome is distinct from every successful (possibly empty) result. -/
theorem searchByColor_no_signal :
    (∀ (candidates : List Candidate) (threshold : Option ℝ) (limit : Option ℕ),
      searchByColor none none candidates threshold limit = Except.error noUsableSignalMsg)
    ∧ (∀ results : List ScoredCandidate,
      (Except.error noUsableSignalMsg : Except String (List ScoredCandidate))
        ≠ Except.ok results) := by
  constructor
  · intro candidates threshold limit
    simp [searchByColor]
  · intro results h
    exact Except.noConfusion h

/-- Witness for C7: the failed-query search on an empty candidate list is
the no-usable-signal error, which differs from the empty success. -/
theorem searchByColor_no_signal_witness :
    searchByColor none none [] none none = Except.error noUsableSignalMsg
    ∧ (Except.error noUsableSignalMsg : Except String (List ScoredCandidate))
      ≠ Except.ok [] :=
  ⟨searchByColor_no_signal.1 [] none none, searchByColor_no_signal.2 []⟩

/-! ### C10: buildColorVector shape for arbitrary-length palettes -/

lemma normalizeLab_length (p : ℝ × ℝ × ℝ) : (normalizeLab p).length = 3 := by
  rcases p with ⟨L, a, b⟩
  rfl

lemma flatMap_normalizeLab_length : ∀ l : List (ℝ × ℝ × ℝ),
    (l.flatMap normalizeLab).length = 3 * l.length := by
  intro l
  induction l with
  | nil => simp
  | cons p t ih =>
    rw [List.flatMap_cons, List.length_append, normalizeLab_length p, ih, List.length_cons]
    ring

lemma buildColorVector_length (sw : List Swatch) : (buildColorVector sw).length = 15 := by
  simp only [buildColorVector, List.length_map]
  rw [flatMap_normalizeLab_length, List.length_take, List.length_append, List.length_map,
    List.length_replicate]
  omega

lemma buildColorVector_take (sw : List Swatch) :
    buildColorVector sw = buildColorVector (sw.take 5) := by
  simp only [buildColorVector, List.length_map]
  rcases le_or_lt sw.length 5 with h | h
  · rw [List.take_of_length_le h]
  · have h5 : (sw.take 5).length = 5 := by
      rw [List.length_take]; omega
    rw [h5, Nat.sub_self, List.replicate_zero, List.append_nil,
      show (5 : ℕ) - sw.length = 0 from by omega, List.replicate_zero, List.append_nil,
      ← List.map_take,
      List.take_of_length_le (by rw [List.length_map, h5] : (sw.take 5 |>.map
        (fun s => rgbToLab s.rgb.1 s.rgb.2.1 s.rgb.2.2)).length ≤ 5)]

/-- C10: for every swatch list, of any length, `buildColorVector` still
returns exactly 15 values and depends only on the first 5 swatches in their
given order. -/
theorem buildColorVector_shape (sw : List Swatch) :
    (buildColorVector sw).length = 15 ∧ buildColorVector sw = buildColorVector (sw.take 5) :=
  ⟨buildColorVector_length sw, buildColorVector_take sw⟩

/-! ### C5: cosine similarity degeneracy and bounds -/

lemma dotList_self_nonneg (a : List ℝ) : 0 ≤ dotList a a := by
  induction a with
  | nil => simp [dotList]
  | cons x xs ih =>
    simp only [dotList, List.zipWith_cons_cons, List.sum_cons] at ih ⊢
    nlinarith [mul_self_nonneg x]

lemma sumsq_eq_dotList_self (a : List ℝ) : (a.map (fun x => x * x)).sum = dotList a a := by
  induction a with
  | nil => rfl
  | cons x xs ih =>
    simp only [dotList, List.map_cons, List.sum_cons, List.zipWith_cons_cons] at ih ⊢
    rw [ih]

lemma sumsq_eq_zero_iff (a : List ℝ) :
    (a.map (fun x => x * x)).sum = 0 ↔ ∀ x ∈ a, x = 0 := by
  induction a with
  | nil => simp
  | cons x xs ih =>
    have hx : 0 ≤ x * x := mul_self_nonneg x
    have hs : 0 ≤ (xs.map (fun x => x * x)).sum := by
      rw [sumsq_eq_dotList_self]; exact dotList_self_nonneg xs
    simp only [List.map_cons, List.sum_cons, List.mem_cons]
    constructor
    · intro h
      have h1 : x * x = 0 := by linarith
      have h2 : (xs.map (fun x => x * x)).sum = 0 := by linarith
      refine fun y hy => hy.elim (fun hxy => ?_) (fun hmem => ih.mp h2 y hmem)
      subst hxy
      exact mul_self_eq_zero.mp h1
    · intro h
      have h1 : x = 0 := h x (Or.inl rfl)
      have h2 : (xs.map (fun x => x * x)).sum = 0 := ih.mpr fun y hy => h y (Or.inr hy)
      rw [h1, h2]; ring

/-- Cauchy-Schwarz for the list dot product, by induction on both lists. -/
lemma dotList_sq_le (a : List ℝ) : ∀ b : List ℝ,
    (dotList a b) ^ 2 ≤ dotList a a * dotList b b := by
  induction a with
  | nil => intro b; simp [dotList]
  | cons x xs ih =>
    intro b
    cases b with
    | nil => simp [dotList]
    | cons y ys =>
      have hA := dotList_self_nonneg xs
      have hB := dotList_self_nonneg ys
      have ihb := ih ys
      simp only [dotList, List.zipWith_cons_cons, List.sum_cons] at hA hB ihb ⊢
      rcases hB.eq_or_lt with hB0 | hBpos
      · have hS : (List.zipWith (fun x y => x * y) xs ys).sum = 0 := by
          have := ihb
          rw [← hB0, mul_zero] at this
          have hSnn := sq_nonneg (List.zipWith (fun x y => x * y) xs ys).sum
          have : (List.zipWith (fun x y => x * y) xs ys).sum ^ 2 = 0 := le_antisymm this hSnn
          exact pow_eq_zero_iff (n := 2) (by norm_num) |>.mp this
        rw [hS, ← hB0]
        nlinarith [mul_self_nonneg y, mul_self_nonneg x, hA,
          mul_nonneg hA (mul_self_nonneg y)]
      · nlinarith [sq_nonneg (x * (List.zipWith (fun x y => x * y) ys ys).sum
            - y * (List.zipWith (fun x y => x * y) xs ys).sum),
          mul_nonneg (mul_self_nonneg y) (sub_nonneg.mpr ihb),
          mul_nonneg hBpos.le (sub_nonneg.mpr ihb)]

lemma magList_nonneg (a : List ℝ) : 0 ≤ magList a := Real.sqrt_nonneg _

lemma magList_mul_self (a : List ℝ) : magList a * magList a = dotList a a := by
  rw [magList, Real.mul_self_sqrt (by rw [sumsq_eq_dotList_self]; exact dotList_self_nonneg a),
    sumsq_eq_dotList_self]

lemma magList_pos_of_not_zero {a : List ℝ} (h : ¬ ∀ x ∈ a, x = 0) : 0 < magList a := by
  have hnn : 0 ≤ (a.map (fun x => x * x)).sum := by
    rw [sumsq_eq_dotList_self]; exact dotList_self_nonneg a
  have hne : (a.map (fun x => x * x)).sum ≠ 0 := fun hz => h ((sumsq_eq_zero_iff a).mp hz)
  exact Real.sqrt_pos.mpr (lt_of_le_of_ne hnn (Ne.symm hne))

/-- C5: cosine similarity is 0 when either vector is absent, when lengths
differ, or when either magnitude is 0; on every pair of non-zero
equal-length vectors it lies in [-1, 1], and on a non-zero vector with
itself it is 1. -/
theorem cosineSimilarity_spec :
    (∀ ob : Option (List ℝ), cosineSimilarity none ob = 0)
    ∧ (∀ oa : Option (List ℝ), cosineSimilarity oa none = 0)
    ∧ (∀ a b : List ℝ, a.length ≠ b.length → cosineSimilarity (some a) (some b) = 0)
    ∧ (∀ a b : List ℝ, magList a = 0 ∨ magList b = 0 → cosineSimilarity (some a) (some b) = 0)
    ∧ (∀ a b : List ℝ, a.length = b.length → (¬ ∀ x ∈ a, x = 0) → (¬ ∀ x ∈ b, x = 0) →
        -1 ≤ cosineSimilarity (some a) (some b) ∧ cosineSimilarity (some a) (some b) ≤ 1)
    ∧ (∀ a : List ℝ, (¬ ∀ x ∈ a, x = 0) → cosineSimilarity (some a) (some a) = 1) := by
  refine ⟨fun ob => cosineSimilarity_none_left ob, fun oa => cosineSimilarity_none_right oa,
    ?_, ?_, ?_, ?_⟩
  · intro a b hne
    simp [cosineSimilarity, hne]
  · intro a b hmag
    by_cases hlen : a.length = b.length
    · simp [cosineSimilarity, hlen, hmag]
    · simp [cosineSimilarity, hlen]
  · intro a b hlen ha hb
    have hma := magList_pos_of_not_zero ha
    have hmb := magList_pos_of_not_zero hb
    have hP : 0 < magList a * magList b := mul_pos hma hmb
    have hcs : (dotList a b) ^ 2 ≤ (magList a * magList b) ^ 2 := by
      have : (magList a * magList b) ^ 2 = dotList a a * dotList b b := by
        rw [mul_pow, sq, sq, magList_mul_self, magList_mul_self]
      rw [this]
      exact dotList_sq_le a b
    have habs : |dotList a b| ≤ magList a * magList b := by
      have hroot := Real.sqrt_le_sqrt hcs
      rwa [Real.sqrt_sq_eq_abs, Real.sqrt_sq_eq_abs, abs_of_pos hP] at hroot
    have heq : cosineSimilarity (some a) (some b)
        = dotList a b / (magList a * magList b) := by
      simp [cosineSimilarity, hlen, hma.ne', hmb.ne']
    rw [heq]
    constructor
    · rw [neg_le, ← neg_div, div_le_one hP]
      have := (abs_le.mp habs).1
      linarith
    · rw [div_le_one hP]
      exact (abs_le.mp habs).2
  · intro a ha
    have hma := magList_pos_of_not_zero ha
    have heq : cosineSimilarity (some a) (some a)
        = dotList a a / (magList a * magList a) := by
      simp [cosineSimilarity, hma.ne']
    rw [heq, magList_mul_self]
    have hdot : dotList a a ≠ 0 := by
      have h2 := magList_mul_self a
      intro h0
      rw [h0] at h2
      exact hma.ne' (mul_self_eq_zero.mp h2)
    exact div_self hdot

/-- Witness for C5: the singleton vector `[3]` is non-zero, its cosine with
itself is 1, and its cosine with an absent vector is 0. -/
theorem cosineSimilarity_spec_witness :
    cosineSimilarity (some [(3 : ℝ)]) (some [(3 : ℝ)]) = 1
    ∧ cosineSimilarity (some [(3 : ℝ)]) none = 0 :=
  ⟨cosineSimilarity_spec.2.2.2.2.2 [(3 : ℝ)] (by norm_num),
    cosineSimilarity_spec.2.1 (some [(3 : ℝ)])⟩

/-! ### C9: colorful records always carry palette and vector -/

lemma checkIsColorful_two {sw : List Swatch} {v : List ℝ}
    (h : checkIsColorful sw v = true) : 2 ≤ sw.length := by
  cases sw with
  | nil => simp [checkIsColorful] at h
  | cons s r =>
    by_contra hlt
    have hr : r = [] := by
      cases r with
      | nil => rfl
      | cons a t => exact absurd (by simp : 2 ≤ (s :: a :: t).length) hlt
    subst hr
    simp [checkIsColorful] at h

/-- C9: `analyzeImageColor` yields `null` or all color fields together, with
`isColorful` true only when there are at least 2 swatches; the collected
enrichment update writes `isColorful` only together with the palette and
vector; and enrichment preserves the colorful-record invariant. -/
theorem featureRecord_colorful_invariant :
    (analyzeImageColor none = none)
    ∧ (∀ sw : List Swatch, ∃ ca : ColorAnalysis,
        analyzeImageColor (some sw) = some ca
        ∧ ca.colorVector.length = 15
        ∧ (ca.isColorful = true → ca.colorPalette ≠ [] ∧ 2 ≤ sw.length))
    ∧ (∀ (cr : Option ColorAnalysis) (er : Option (List ℝ)),
        (collectUpdates cr er).isColorful.isSome →
          (collectUpdates cr er).colorPalette.isSome
          ∧ (collectUpdates cr er).colorVector.isSome)
    ∧ (∀ (stored : FeatureRecord) (ext : Option (List Swatch)) (er : Option (List ℝ)),
        featureInvariant stored → featureInvariant (enrich stored (analyzeImageColor ext) er)) := by
  refine ⟨rfl, ?_, ?_, ?_⟩
  · intro sw
    refine ⟨_, rfl, buildColorVector_length sw, fun hcol => ?_⟩
    have h2 : 2 ≤ sw.length := checkIsColorful_two hcol
    refine ⟨?_, h2⟩
    have : sw ≠ [] := by
      intro h0
      rw [h0] at h2
      simp at h2
    simpa [analyzeImageColor] using this
  · intro cr er h
    cases cr with
    | none => simp [collectUpdates] at h
    | some ca => simp [collectUpdates]
  · intro stored ext er hInv
    cases ext with
    | none =>
      intro hcol
      by_cases her : er.isSome
      · cases er with
        | none => simp at her
        | some e =>
          simp only [analyzeImageColor, enrich, collectUpdates, applyUpdates, setField,
            Option.map_none] at hcol ⊢
          simp only [Option.isSome_none, Option.isSome_some, false_or, if_true] at hcol ⊢
          exact hInv hcol
      · cases er with
        | some e => simp at her
        | none => simpa [analyzeImageColor, enrich] using hInv hcol
    | some sw =>
      intro hcol
      simp only [analyzeImageColor, enrich, collectUpdates, applyUpdates, setField,
        Option.map_some, Option.isSome_some, true_or, if_true] at hcol ⊢
      have hct : checkIsColorful sw (buildColorVector sw) = true := by
        simpa using hcol
      have h2 : 2 ≤ sw.length := checkIsColorful_two hct
      have hne : sw ≠ [] := by
        intro h0
        rw [h0] at h2
        simp at h2
      constructor
      · exact ⟨_, rfl, by simpa using hne⟩
      · exact ⟨_, rfl, buildColorVector_length sw⟩

/-- Witness for C9: the empty stored record trivially satisfies the
invariant, and enrichment with a failed extraction preserves it. -/
theorem featureRecord_colorful_invariant_witness :
    featureInvariant (enrich ⟨none, none, none, none, none⟩ (analyzeImageColor none) none) :=
  featureRecord_colorful_invariant.2.2.2 ⟨none, none, none, none, none⟩ none none
    (by intro h; simp at h)

/-! ### C8: the color-space converter follows the spec algorithm -/

lemma gammaExpandSpec_eq (c : ℝ) : gammaExpandSpec c = srgbLin c := by
  unfold gammaExpandSpec srgbLin
  by_cases h : 0.04045 < c
  · rw [if_neg (not_le.mpr h), if_pos h]
  · rw [if_pos (not_lt.mp h), if_neg h]

lemma cieFSpec_eq (t : ℝ) : cieFSpec t = labF t := rfl

/-- C8: on every integer RGB triple the source `rgbToLab` computes exactly
the spec's algorithm (and in particular is total: every integer input
yields a Lab triple, with no error case). -/
theorem rgbToLab_follows_spec (r g b : ℤ) :
    rgbToLab (r : ℝ) (g : ℝ) (b : ℝ) = rgbToLab_spec (r : ℝ) (g : ℝ) (b : ℝ) := by
  simp only [rgbToLab, rgbToLab_spec, gammaExpandSpec_eq, cieFSpec_eq]
  have h1 : ∀ u v w : ℝ, u * 0.4124564 + v * 0.3575761 + w * 0.1804375
      = 0.4124564 * u + 0.3575761 * v + 0.1804375 * w := by intro u v w; ring
  have h2 : ∀ u v w : ℝ, u * 0.2126729 + v * 0.7151522 + w * 0.072175
      = 0.2126729 * u + 0.7151522 * v + 0.072175 * w := by intro u v w; ring
  have h3 : ∀ u v w : ℝ, u * 0.0193339 + v * 0.119192 + w * 0.9503041
      = 0.0193339 * u + 0.119192 * v + 0.9503041 * w := by intro u v w; ring
  rw [h1, h2, h3]

/-! ### C6: filter, rank, truncate, defaults -/

lemma searchByColor_ok {qc : Option ColorAnalysis} {qt : Option (List ℝ)}
    {cands : List Candidate} {th : ℝ} {lim : ℕ} (h : ¬ (qc.isNone ∧ qt.isNone)) :
    searchByColor qc qt cands (some th) (some lim)
      = Except.ok ((rankedList qc qt cands th).take lim) := by
  rw [searchByColor, if_neg h]
  rfl

lemma scoreDesc_trans : ∀ a b c : ScoredCandidate,
    scoreDesc a b → scoreDesc b c → scoreDesc a c := by
  intro a b c hab hbc
  exact decide_eq_true (le_trans (of_decide_eq_true hbc) (of_decide_eq_true hab))

lemma scoreDesc_total : ∀ a b : ScoredCandidate, scoreDesc a b || scoreDesc b a := by
  intro a b
  simp only [scoreDesc, Bool.or_eq_true, decide_eq_true_eq]
  exact le_total b.score a.score

/-- C6: with no caller-supplied threshold and cap, `searchByColor` behaves
as with 0.4 and 10; on any searchable query it succeeds with the list
obtained by keeping exactly the candidates scoring at least the threshold
(strictly-below ones removed, exactly-at ones kept), sorting them
descending by score with ties kept in candidate order (stably), and
truncating to the cap; all candidates scoring below the threshold yields
the empty successful result, not an error. -/
theorem searchByColor_filter_sort_truncate :
    (∀ (qc : Option ColorAnalysis) (qt : Option (List ℝ)) (cands : List Candidate),
      searchByColor qc qt cands none none = searchByColor qc qt cands (some 0.4) (some 10))
    ∧ (∀ (qc : Option ColorAnalysis) (qt : Option (List ℝ)) (cands : List Candidate)
        (th : ℝ) (lim : ℕ), ¬ (qc.isNone ∧ qt.isNone) →
        searchByColor qc qt cands (some th) (some lim)
          = Except.ok ((rankedList qc qt cands th).take lim)
        ∧ (∀ x ∈ (rankedList qc qt cands th).take lim, th ≤ x.score)
        ∧ (∀ x ∈ rankedList qc qt cands th, x ∈ scoredList qc qt cands ∧ th ≤ x.score)
        ∧ (∀ x ∈ scoredList qc qt cands, th ≤ x.score → x ∈ rankedList qc qt cands th)
        ∧ (rankedList qc qt cands th).Pairwise (fun a b => b.score ≤ a.score)
        ∧ (∀ v : ℝ, (rankedList qc qt cands th).filter (fun x => decide (x.score = v))
            = (keptList qc qt cands th).filter (fun x => decide (x.score = v)))
        ∧ ((rankedList qc qt cands th).take lim).length
            = min lim (keptList qc qt cands th).length
        ∧ ((∀ x ∈ scoredList qc qt cands, x.score < th) →
            searchByColor qc qt cands (some th) (some lim) = Except.ok [])) := by
  constructor
  · intro qc qt cands
    rfl
  · intro qc qt cands th lim h
    have hmem_ranked : ∀ x ∈ rankedList qc qt cands th,
        x ∈ scoredList qc qt cands ∧ th ≤ x.score := by
      intro x hx
      rw [rankedList, List.mem_mergeSort, keptList, List.mem_filter] at hx
      exact ⟨hx.1, of_decide_eq_true hx.2⟩
    refine ⟨searchByColor_ok h, ?_, hmem_ranked, ?_, ?_, ?_, ?_, ?_⟩
    · intro x hx
      exact (hmem_ranked x (List.mem_of_mem_take hx)).2
    · intro x hx hth
      rw [rankedList, List.mem_mergeSort, keptList, List.mem_filter]
      exact ⟨hx, decide_eq_true hth⟩
    · refine List.Pairwise.imp ?_ (List.sorted_mergeSort scoreDesc_trans scoreDesc_total _)
      intro a b hab
      exact of_decide_eq_true hab
    · intro v
      set p : ScoredCandidate → Bool := fun x => decide (x.score = v) with hp
      set c := (keptList qc qt cands th).filter p with hc
      have hcpair : c.Pairwise (fun a b => scoreDesc a b = true) := by
        refine List.pairwise_of_forall_mem_list ?_
        intro a ha b hb
        rw [hc, List.mem_filter] at ha hb
        have hav : a.score = v := of_decide_eq_true ha.2
        have hbv : b.score = v := of_decide_eq_true hb.2
        exact decide_eq_true (le_of_eq (hbv.trans hav.symm))
      have hsub : List.Sublist c (rankedList qc qt cands th) :=
        List.sublist_mergeSort scoreDesc_trans scoreDesc_total hcpair (List.filter_sublist _)
      have hsub2 : List.Sublist c ((rankedList qc qt cands th).filter p) := by
        have := hsub.filter p
        rwa [hc, List.filter_filter, show (fun x => p x && p x) = p from by
          funext x; cases p x <;> rfl] at this
      have hlen : ((rankedList qc qt cands th).filter p).length = c.length := by
        rw [hc]
        exact ((List.mergeSort_perm (keptList qc qt cands th) scoreDesc).filter p).length_eq
      exact (hsub2.eq_of_length hlen.symm).symm
    · rw [List.length_take, rankedList, List.length_mergeSort]
    · intro hall
      rw [searchByColor_ok h]
      have hkept : keptList qc qt cands th = [] := by
        rw [keptList, List.filter_eq_nil_iff]
        intro x hx
        simp only [decide_eq_true_eq]
        exact not_le.mpr (hall x hx)
      rw [rankedList, hkept, List.mergeSort_nil, List.take_nil]

/-- Witness for C6: a query with only a text signal against one candidate
whose best score is -1 and threshold 0.4 returns the empty list as a
success. -/
theorem searchByColor_filter_sort_truncate_witness :
    searchByColor none (some [(1 : ℝ)]) [⟨none, some [(-1 : ℝ)]⟩] (some 0.4) (some 10)
      = Except.ok [] := by
  have h := (searchByColor_filter_sort_truncate.2 none (some [(1 : ℝ)])
    [⟨none, some [(-1 : ℝ)]⟩] 0.4 10 (by simp)).2.2.2.2.2.2.2
  apply h
  intro x hx
  have hx1 : x = scoreCandidate 0.0 1.0 none (some [(1 : ℝ)]) ⟨none, some [(-1 : ℝ)]⟩ := by
    simpa [scoredList, adaptiveWeights] using hx
  subst hx1
  have hcos : cosineSimilarity (some [(1 : ℝ)]) (some [(-1 : ℝ)]) = -1 := by
    simp only [cosineSimilarity, dotList, magList, List.zipWith_cons_cons, List.zipWith_nil_right,
      List.map_cons, List.map_nil, List.sum_cons, List.sum_nil, List.length_singleton]
    rw [if_neg (by norm_num)]
    rw [show (1 : ℝ) * 1 + 0 = 1 by norm_num, show (-1 : ℝ) * -1 + 0 = 1 by norm_num,
      Real.sqrt_one]
    rw [if_neg (by norm_num)]
    norm_num
  have hsc : (scoreCandidate 0.0 1.0 none (some [(1 : ℝ)]) ⟨none, some [(-1 : ℝ)]⟩).score = -1 := by
    simp only [scoreCandidate, hasVec, Option.isSome_some, Option.isSome_none]
    norm_num [hcos]
  rw [hsc]
  norm_num

/-! ### Numeric bounds for the Lab conversion

Rational enclosures of the cube root, a tangent-line upper bound and
chord lower bounds for the CIE compression `labF`, used to bound the Lab
gamut of `rgbToLab` and to evaluate it at concrete colors. -/

lemma le_cbrt {t lo : ℝ} (hlo : 0 ≤ lo) (h : lo ^ (3 : ℕ) ≤ t) :
    lo ≤ t ^ ((1 : ℝ) / 3) := by
  have h1 : (lo ^ (3 : ℕ) : ℝ) ^ ((1 : ℝ) / 3) ≤ t ^ ((1 : ℝ) / 3) :=
    Real.rpow_le_rpow (by positivity) h (by norm_num)
  rwa [← Real.rpow_natCast lo 3, ← Real.rpow_mul hlo,
    show ((3 : ℕ) : ℝ) * (1 / 3) = 1 by norm_num, Real.rpow_one] at h1

lemma cbrt_le {t hi : ℝ} (hhi : 0 ≤ hi) (ht : 0 ≤ t) (h : t ≤ hi ^ (3 : ℕ)) :
    t ^ ((1 : ℝ) / 3) ≤ hi := by
  have h1 : t ^ ((1 : ℝ) / 3) ≤ (hi ^ (3 : ℕ) : ℝ) ^ ((1 : ℝ) / 3) :=
    Real.rpow_le_rpow ht h (by norm_num)
  rwa [← Real.rpow_natCast hi 3, ← Real.rpow_mul hhi,
    show ((3 : ℕ) : ℝ) * (1 / 3) = 1 by norm_num, Real.rpow_one] at h1

lemma cbrt_lt {t hi : ℝ} (hhi : 0 ≤ hi) (ht : 0 ≤ t) (h : t < hi ^ (3 : ℕ)) :
    t ^ ((1 : ℝ) / 3) < hi := by
  have h1 : t ^ ((1 : ℝ) / 3) < (hi ^ (3 : ℕ) : ℝ) ^ ((1 : ℝ) / 3) :=
    Real.rpow_lt_rpow ht h (by norm_num)
  rwa [← Real.rpow_natCast hi 3, ← Real.rpow_mul hhi,
    show ((3 : ℕ) : ℝ) * (1 / 3) = 1 by norm_num, Real.rpow_one] at h1

lemma labF_of_pos {t : ℝ} (h : 0.008856 < t) : labF t = t ^ ((1 : ℝ) / 3) := if_pos h

lemma labF_ge {t : ℝ} (ht : 0 ≤ t) : 16 / 116 ≤ labF t := by
  unfold labF
  split_ifs with h
  · have hc : (0.2068 : ℝ) ^ (3 : ℕ) ≤ t := by
      norm_num
      linarith
    have := le_cbrt (by norm_num : (0 : ℝ) ≤ 0.2068) hc
    linarith
  · linarith

lemma labF_le {t : ℝ} (ht : 0 ≤ t) (h1 : t ≤ 1.0000001) : labF t ≤ 1.0000001 := by
  unfold labF
  split_ifs with h
  · exact cbrt_le (by norm_num) ht (by norm_num; linarith)
  · have := not_lt.mp h
    linarith

/-- Tangent-style global upper bound for `labF`: by AM-GM on the cube root,
`labF t ≤ t / (3 c²) + 2c/3` for every constant `c ≥ 0.3104`. -/
lemma labF_tangent (c : ℝ) (hc : 0.3104 ≤ c) {t : ℝ} (ht : 0 ≤ t) :
    labF t ≤ t / (3 * c ^ 2) + 2 * c / 3 := by
  have hc0 : (0 : ℝ) < c := lt_of_lt_of_le (by norm_num) hc
  have h3c : (0 : ℝ) < 3 * c ^ 2 := by positivity
  unfold labF
  split_ifs with h
  · set u := t ^ ((1 : ℝ) / 3) with hu
    have hu0 : 0 ≤ u := Real.rpow_nonneg ht _
    have hcube : u ^ (3 : ℕ) = t := by
      rw [hu, ← Real.rpow_natCast (t ^ ((1 : ℝ) / 3)) 3, ← Real.rpow_mul ht,
        show (1 / 3 : ℝ) * ((3 : ℕ) : ℝ) = 1 by norm_num, Real.rpow_one]
    have key : 3 * u * c ^ 2 ≤ t + 2 * c ^ 3 := by
      nlinarith [mul_nonneg (sq_nonneg (u - c)) (show (0 : ℝ) ≤ u + 2 * c by linarith),
        hcube]
    have hrw : t / (3 * c ^ 2) + 2 * c / 3 = (t + 2 * c ^ 3) / (3 * c ^ 2) := by
      field_simp
      ring
    rw [hrw, le_div_iff₀ h3c]
    nlinarith [key]
  · have ht2 : t ≤ 0.008856 := not_lt.mp h
    have hdiv : 0 ≤ t / (3 * c ^ 2) := by positivity
    nlinarith [hc, ht, ht2, hdiv]

/-- Chord lower bound for the cube root: a line lying below the cube root
at both ends of an interval of nonnegative reals lies below it on the whole
interval, by concavity. -/
lemma cbrt_chord {al be t1 t2 : ℝ} (h1 : 0 ≤ t1) (h12 : t1 < t2)
    (hl1 : al * t1 + be ≤ t1 ^ ((1 : ℝ) / 3)) (hl2 : al * t2 + be ≤ t2 ^ ((1 : ℝ) / 3)) :
    ∀ t, t1 ≤ t → t ≤ t2 → al * t + be ≤ t ^ ((1 : ℝ) / 3) := by
  intro t ha hb
  have hcon := Real.concaveOn_rpow (by norm_num : (0 : ℝ) ≤ 1 / 3)
    (by norm_num : (1 / 3 : ℝ) ≤ 1)
  have hd : (0 : ℝ) < t2 - t1 := by linarith
  set lam := (t2 - t) / (t2 - t1) with hlam_def
  set mu := (t - t1) / (t2 - t1) with hmu_def
  have hlam : 0 ≤ lam := div_nonneg (by linarith) hd.le
  have hmu : 0 ≤ mu := div_nonneg (by linarith) hd.le
  have hsum : lam + mu = 1 := by
    rw [hlam_def, hmu_def, div_add_div_same, div_eq_one_iff_eq hd.ne']
    ring
  have hcomb : lam * t1 + mu * t2 = t := by
    rw [hlam_def, hmu_def]
    field_simp
    ring
  have hjensen := hcon.2 (Set.mem_Ici.mpr h1) (Set.mem_Ici.mpr (le_trans h1 h12.le))
    hlam hmu hsum
  simp only [smul_eq_mul] at hjensen
  rw [hcomb] at hjensen
  have hexp : lam * (al * t1 + be) + mu * (al * t2 + be) = al * t + be := by
    calc lam * (al * t1 + be) + mu * (al * t2 + be)
        = al * (lam * t1 + mu * t2) + be * (lam + mu) := by ring
      _ = al * t + be * 1 := by rw [hcomb, hsum]
      _ = al * t + be := by ring
  have hm1 : lam * (al * t1 + be) ≤ lam * (t1 ^ ((1 : ℝ) / 3)) :=
    mul_le_mul_of_nonneg_left hl1 hlam
  have hm2 : mu * (al * t2 + be) ≤ mu * (t2 ^ ((1 : ℝ) / 3)) :=
    mul_le_mul_of_nonneg_left hl2 hmu
  linarith [hjensen, hm1, hm2, hexp]

/-- Chord lower bound for `labF` on an interval above the CIE threshold:
verified at the endpoints through rational cube-root enclosures. -/
lemma labF_chord (lo1 lo2 : ℝ) {al be t1 t2 : ℝ} (hd : 0.008856 < t1) (h12 : t1 < t2)
    (hlo1 : 0 ≤ lo1) (hlo1c : lo1 ^ (3 : ℕ) ≤ t1) (hl1 : al * t1 + be ≤ lo1)
    (hlo2 : 0 ≤ lo2) (hlo2c : lo2 ^ (3 : ℕ) ≤ t2) (hl2 : al * t2 + be ≤ lo2) :
    ∀ t, t1 ≤ t → t ≤ t2 → al * t + be ≤ labF t := by
  intro t ha hb
  rw [labF_of_pos (lt_of_lt_of_le hd ha)]
  refine cbrt_chord (le_trans (by norm_num) hd.le) h12 ?_ ?_ t ha hb
  · exact le_trans hl1 (le_cbrt hlo1 hlo1c)
  · exact le_trans hl2 (le_cbrt hlo2 hlo2c)

lemma chordI1 : ∀ t : ℝ, 0 ≤ t → t ≤ 0.05 →
    (2304701 / 500000 : ℝ) * t + 4 / 29 ≤ labF t := by
  intro t h0 h05
  unfold labF
  split_ifs with h
  · refine cbrt_chord (by norm_num : (0 : ℝ) ≤ 0.008856) (by norm_num) ?_ ?_ t h.le h05
    · have hlo : (103446517 / 500000000 : ℝ) ≤ (0.008856 : ℝ) ^ ((1 : ℝ) / 3) :=
        le_cbrt (by norm_num) (by norm_num)
      linarith
    · have hlo : (368403149 / 1000000000 : ℝ) ≤ (0.05 : ℝ) ^ ((1 : ℝ) / 3) :=
        le_cbrt (by norm_num) (by norm_num)
      linarith
  · have ht : t ≤ 0.008856 := not_lt.mp h
    linarith

lemma chordI2 : ∀ t : ℝ, 0.05 ≤ t → t ≤ 0.12 →
    (891709 / 500000 : ℝ) * t + 279229 / 1000000 ≤ labF t :=
  labF_chord (368403149 / 1000000000 : ℝ) (246621207 / 500000000 : ℝ)
    (by norm_num) (by norm_num) (by norm_num) (by norm_num) (by norm_num)
    (by norm_num) (by norm_num) (by norm_num)

lemma chordI3 : ∀ t : ℝ, 0.12 ≤ t → t ≤ 0.22 →
    (552193 / 500000 : ℝ) * t + 360713 / 1000000 ≤ labF t :=
  labF_chord (246621207 / 500000000 : ℝ) (603681073 / 1000000000 : ℝ)
    (by norm_num) (by norm_num) (by norm_num) (by norm_num) (by norm_num)
    (by norm_num) (by norm_num) (by norm_num)

lemma chordI4 : ∀ t : ℝ, 0.22 ≤ t → t ≤ 0.35 →
    (388649 / 500000 : ℝ) * t + 13521 / 31250 ≤ labF t :=
  labF_chord (603681073 / 1000000000 : ℝ) (704729873 / 1000000000 : ℝ)
    (by norm_num) (by norm_num) (by norm_num) (by norm_num) (by norm_num)
    (by norm_num) (by norm_num) (by norm_num)

lemma chordI5 : ∀ t : ℝ, 0.35 ≤ t → t ≤ 0.6 →
    (554811 / 1000000 : ℝ) * t + 510543 / 1000000 ≤ labF t :=
  labF_chord (704729873 / 1000000000 : ℝ) (168686533 / 200000000 : ℝ)
    (by norm_num) (by norm_num) (by norm_num) (by norm_num) (by norm_num)
    (by norm_num) (by norm_num) (by norm_num)

lemma chordI6 : ∀ t : ℝ, 0.6 ≤ t → t ≤ 1.0000001 →
    (195709 / 500000 : ℝ) * t + 304289 / 500000 ≤ labF t :=
  labF_chord (168686533 / 200000000 : ℝ) (1000000033 / 1000000000 : ℝ)
    (by norm_num) (by norm_num) (by norm_num) (by norm_num) (by norm_num)
    (by norm_num) (by norm_num) (by norm_num)

/-- Upper gamut bound for the raw `a` direction: over the linearized RGB
cube, `f(x) - f(y) ≤ 0.2535` (so raw `a ≤ 126.75`). -/
lemma aRaw_le (s1 s2 s3 : ℝ) (h10 : 0 ≤ s1) (h11 : s1 ≤ 1) (h20 : 0 ≤ s2)
    (h21 : s2 ≤ 1) (h30 : 0 ≤ s3) (h31 : s3 ≤ 1) :
    labF ((s1 * 0.4124564 + s2 * 0.3575761 + s3 * 0.1804375) / 0.95047)
      - labF ((s1 * 0.2126729 + s2 * 0.7151522 + s3 * 0.072175) / 1.0) ≤ 0.2535 := by
  have hx0 : 0 ≤ (s1 * 0.4124564 + s2 * 0.3575761 + s3 * 0.1804375) / 0.95047 := by positivity
  have hy0 : 0 ≤ (s1 * 0.2126729 + s2 * 0.7151522 + s3 * 0.072175) / 1.0 := by positivity
  have hy1 : (s1 * 0.2126729 + s2 * 0.7151522 + s3 * 0.072175) / 1.0 ≤ 1.0000001 := by
    rw [div_le_iff₀ (by norm_num)]
    linarith
  rcases le_or_lt ((s1 * 0.2126729 + s2 * 0.7151522 + s3 * 0.072175) / 1.0) 0.05 with hc | hc
  · have hub := labF_tangent (435 / 1000) (by norm_num) hx0
    have hlb := chordI1 _ hy0 hc
    norm_num at hub hlb hc hy0 ⊢
    linarith
  rcases le_or_lt ((s1 * 0.2126729 + s2 * 0.7151522 + s3 * 0.072175) / 1.0) 0.12 with hc2 | hc2
  · have hub := labF_tangent (62 / 100) (by norm_num) hx0
    have hlb := chordI2 _ hc.le hc2
    norm_num at hub hlb hc hc2 ⊢
    linarith
  rcases le_or_lt ((s1 * 0.2126729 + s2 * 0.7151522 + s3 * 0.072175) / 1.0) 0.22 with hc3 | hc3
  · have hub := labF_tangent (785 / 1000) (by norm_num) hx0
    have hlb := chordI3 _ hc2.le hc3
    norm_num at hub hlb hc2 hc3 ⊢
    linarith
  rcases le_or_lt ((s1 * 0.2126729 + s2 * 0.7151522 + s3 * 0.072175) / 1.0) 0.35 with hc4 | hc4
  · have hub := labF_tangent (855 / 1000) (by norm_num) hx0
    have hlb := chordI4 _ hc3.le hc4
    norm_num at hub hlb hc3 hc4 ⊢
    linarith
  rcases le_or_lt ((s1 * 0.2126729 + s2 * 0.7151522 + s3 * 0.072175) / 1.0) 0.6 with hc5 | hc5
  · have hub := labF_tangent (87 / 100) (by norm_num) hx0
    have hlb := chordI5 _ hc4.le hc5
    norm_num at hub hlb hc4 hc5 ⊢
    linarith
  · have hub := labF_tangent (925 / 1000) (by norm_num) hx0
    have hlb := chordI6 _ hc5.le hy1
    norm_num at hub hlb hc5 hy1 ⊢
    linarith

/-- Lower gamut bound for the raw `a` direction: `f(y) - f(x) ≤ 0.2555`
(so raw `a ≥ -127.75`). -/
lemma aRaw_ge (s1 s2 s3 : ℝ) (h10 : 0 ≤ s1) (h11 : s1 ≤ 1) (h20 : 0 ≤ s2)
    (h21 : s2 ≤ 1) (h30 : 0 ≤ s3) (h31 : s3 ≤ 1) :
    labF ((s1 * 0.2126729 + s2 * 0.7151522 + s3 * 0.072175) / 1.0)
      - labF ((s1 * 0.4124564 + s2 * 0.3575761 + s3 * 0.1804375) / 0.95047) ≤ 0.2555 := by
  have hx0 : 0 ≤ (s1 * 0.4124564 + s2 * 0.3575761 + s3 * 0.1804375) / 0.95047 := by positivity
  have hy0 : 0 ≤ (s1 * 0.2126729 + s2 * 0.7151522 + s3 * 0.072175) / 1.0 := by positivity
  have hx1 : (s1 * 0.4124564 + s2 * 0.3575761 + s3 * 0.1804375) / 0.95047 ≤ 1 := by
    rw [div_le_one (by norm_num)]
    linarith
  rcases le_or_lt ((s1 * 0.4124564 + s2 * 0.3575761 + s3 * 0.1804375) / 0.95047) 0.05 with hc | hc
  · have hub := labF_tangent (37 / 100) (by norm_num) hy0
    have hlb := chordI1 _ hx0 hc
    norm_num at hub hlb hc hx0 ⊢
    linarith
  rcases le_or_lt ((s1 * 0.4124564 + s2 * 0.3575761 + s3 * 0.1804375) / 0.95047) 0.12 with hc2 | hc2
  · have hub := labF_tangent (595 / 1000) (by norm_num) hy0
    have hlb := chordI2 _ hc.le hc2
    norm_num at hub hlb hc hc2 ⊢
    linarith
  rcases le_or_lt ((s1 * 0.4124564 + s2 * 0.3575761 + s3 * 0.1804375) / 0.95047) 0.22 with hc3 | hc3
  · have hub := labF_tangent (75 / 100) (by norm_num) hy0
    have hlb := chordI3 _ hc2.le hc3
    norm_num at hub hlb hc2 hc3 ⊢
    linarith
  rcases le_or_lt ((s1 * 0.4124564 + s2 * 0.3575761 + s3 * 0.1804375) / 0.95047) 0.35 with hc4 | hc4
  · have hub := labF_tangent (875 / 1000) (by norm_num) hy0
    have hlb := chordI4 _ hc3.le hc4
    norm_num at hub hlb hc3 hc4 ⊢
    linarith
  rcases le_or_lt ((s1 * 0.4124564 + s2 * 0.3575761 + s3 * 0.1804375) / 0.95047) 0.6 with hc5 | hc5
  · have hub := labF_tangent (895 / 1000) (by norm_num) hy0
    have hlb := chordI5 _ hc4.le hc5
    norm_num at hub hlb hc4 hc5 ⊢
    linarith
  · have hub := labF_tangent (94 / 100) (by norm_num) hy0
    have hlb := chordI6 _ hc5.le (le_trans hx1 (by norm_num))
    norm_num at hub hlb hc5 hx1 ⊢
    linarith

/-- Upper gamut bound for the raw `b` direction: `f(y) - f(z) ≤ 0.634`
(so raw `b ≤ 126.8`). -/
lemma bRaw_le (s1 s2 s3 : ℝ) (h10 : 0 ≤ s1) (h11 : s1 ≤ 1) (h20 : 0 ≤ s2)
    (h21 : s2 ≤ 1) (h30 : 0 ≤ s3) (h31 : s3 ≤ 1) :
    labF ((s1 * 0.2126729 + s2 * 0.7151522 + s3 * 0.072175) / 1.0)
      - labF ((s1 * 0.0193339 + s2 * 0.119192 + s3 * 0.9503041) / 1.08883) ≤ 0.6340 := by
  have hy0 : 0 ≤ (s1 * 0.2126729 + s2 * 0.7151522 + s3 * 0.072175) / 1.0 := by positivity
  have hz0 : 0 ≤ (s1 * 0.0193339 + s2 * 0.119192 + s3 * 0.9503041) / 1.08883 := by positivity
  have hz1 : (s1 * 0.0193339 + s2 * 0.119192 + s3 * 0.9503041) / 1.08883 ≤ 1 := by
    rw [div_le_one (by norm_num)]
    linarith
  rcases le_or_lt ((s1 * 0.0193339 + s2 * 0.119192 + s3 * 0.9503041) / 1.08883) 0.05 with hc | hc
  · have hub := labF_tangent (685 / 1000) (by norm_num) hy0
    have hlb := chordI1 _ hz0 hc
    norm_num at hub hlb hc hz0 ⊢
    linarith
  rcases le_or_lt ((s1 * 0.0193339 + s2 * 0.119192 + s3 * 0.9503041) / 1.08883) 0.12 with hc2 | hc2
  · have hub := labF_tangent (96 / 100) (by norm_num) hy0
    have hlb := chordI2 _ hc.le hc2
    norm_num at hub hlb hc hc2 ⊢
    linarith
  rcases le_or_lt ((s1 * 0.0193339 + s2 * 0.119192 + s3 * 0.9503041) / 1.08883) 0.22 with hc3 | hc3
  · have hub := labF_tangent (975 / 1000) (by norm_num) hy0
    have hlb := chordI3 _ hc2.le hc3
    norm_num at hub hlb hc2 hc3 ⊢
    linarith
  rcases le_or_lt ((s1 * 0.0193339 + s2 * 0.119192 + s3 * 0.9503041) / 1.08883) 0.35 with hc4 | hc4
  · have hub := labF_tangent (98 / 100) (by norm_num) hy0
    have hlb := chordI4 _ hc3.le hc4
    norm_num at hub hlb hc3 hc4 ⊢
    linarith
  rcases le_or_lt ((s1 * 0.0193339 + s2 * 0.119192 + s3 * 0.9503041) / 1.08883) 0.6 with hc5 | hc5
  · have hub := labF_tangent (98 / 100) (by norm_num) hy0
    have hlb := chordI5 _ hc4.le hc5
    norm_num at hub hlb hc4 hc5 ⊢
    linarith
  · have hub := labF_tangent (99 / 100) (by norm_num) hy0
    have hlb := chordI6 _ hc5.le (le_trans hz1 (by norm_num))
    norm_num at hub hlb hc5 hz1 ⊢
    linarith

/-- Lower gamut bound for the raw `b` direction: `f(z) - f(y) ≤ 0.639`
(so raw `b ≥ -127.8`). -/
lemma bRaw_ge (s1 s2 s3 : ℝ) (h10 : 0 ≤ s1) (h11 : s1 ≤ 1) (h20 : 0 ≤ s2)
    (h21 : s2 ≤ 1) (h30 : 0 ≤ s3) (h31 : s3 ≤ 1) :
    labF ((s1 * 0.0193339 + s2 * 0.119192 + s3 * 0.9503041) / 1.08883)
      - labF ((s1 * 0.2126729 + s2 * 0.7151522 + s3 * 0.072175) / 1.0) ≤ 0.6390 := by
  have hy0 : 0 ≤ (s1 * 0.2126729 + s2 * 0.7151522 + s3 * 0.072175) / 1.0 := by positivity
  have hz0 : 0 ≤ (s1 * 0.0193339 + s2 * 0.119192 + s3 * 0.9503041) / 1.08883 := by positivity
  have hy1 : (s1 * 0.2126729 + s2 * 0.7151522 + s3 * 0.072175) / 1.0 ≤ 1.0000001 := by
    rw [div_le_iff₀ (by norm_num)]
    linarith
  rcases le_or_lt ((s1 * 0.2126729 + s2 * 0.7151522 + s3 * 0.072175) / 1.0) 0.05 with hc | hc
  · have hub := labF_tangent (845 / 1000) (by norm_num) hz0
    have hlb := chordI1 _ hy0 hc
    norm_num at hub hlb hc hy0 ⊢
    linarith
  rcases le_or_lt ((s1 * 0.2126729 + s2 * 0.7151522 + s3 * 0.072175) / 1.0) 0.12 with hc2 | hc2
  · have hub := labF_tangent (955 / 1000) (by norm_num) hz0
    have hlb := chordI2 _ hc.le hc2
    norm_num at hub hlb hc hc2 ⊢
    linarith
  rcases le_or_lt ((s1 * 0.2126729 + s2 * 0.7151522 + s3 * 0.072175) / 1.0) 0.22 with hc3 | hc3
  · have hub := labF_tangent (96 / 100) (by norm_num) hz0
    have hlb := chordI3 _ hc2.le hc3
    norm_num at hub hlb hc2 hc3 ⊢
    linarith
  rcases le_or_lt ((s1 * 0.2126729 + s2 * 0.7151522 + s3 * 0.072175) / 1.0) 0.35 with hc4 | hc4
  · have hub := labF_tangent (965 / 1000) (by norm_num) hz0
    have hlb := chordI4 _ hc3.le hc4
    norm_num at hub hlb hc3 hc4 ⊢
    linarith
  rcases le_or_lt ((s1 * 0.2126729 + s2 * 0.7151522 + s3 * 0.072175) / 1.0) 0.6 with hc5 | hc5
  · have hub := labF_tangent (97 / 100) (by norm_num) hz0
    have hlb := chordI5 _ hc4.le hc5
    norm_num at hub hlb hc4 hc5 ⊢
    linarith
  · have hub := labF_tangent (985 / 1000) (by norm_num) hz0
    have hlb := chordI6 _ hc5.le hy1
    norm_num at hub hlb hc5 hy1 ⊢
    linarith

lemma round2_le {x : ℝ} {n : ℤ} (h : x * 100 + 1 / 2 < (n : ℝ) + 1) :
    round2 x ≤ (n : ℝ) / 100 := by
  have hj : (jsRound (x * 100) : ℝ) ≤ (n : ℝ) := by
    have hfl : jsRound (x * 100) < n + 1 := by
      rw [jsRound]
      refine Int.floor_lt.mpr ?_
      push_cast
      linarith
    exact_mod_cast Int.lt_add_one_iff.mp hfl
  rw [round2]
  linarith

lemma le_round2 {x : ℝ} {n : ℤ} (h : (n : ℝ) ≤ x * 100 + 1 / 2) :
    (n : ℝ) / 100 ≤ round2 x := by
  have hj : (n : ℝ) ≤ (jsRound (x * 100) : ℝ) := by
    rw [jsRound]
    exact_mod_cast Int.le_floor.mpr (by exact_mod_cast h)
  rw [round2]
  linarith

lemma srgbLin_mem {c : ℝ} (h0 : 0 ≤ c) (h1 : c ≤ 1) :
    0 ≤ srgbLin c ∧ srgbLin c ≤ 1 := by
  unfold srgbLin
  split_ifs with h
  · refine ⟨Real.rpow_nonneg (div_nonneg (by linarith) (by norm_num)) _,
      Real.rpow_le_one (div_nonneg (by linarith) (by norm_num)) ?_ (by norm_num)⟩
    rw [div_le_one (by norm_num)]
    linarith
  · constructor
    · positivity
    · rw [div_le_one (by norm_num)]
      linarith

/-- Component bounds of the Lab triple produced from linearized channels in
`[0, 1]`: `L` lands in `[0, 100]` and both chroma components in
`[-128, 127]` after the 2-decimal rounding. -/
lemma labTriple_bounds (s1 s2 s3 : ℝ) (h10 : 0 ≤ s1) (h11 : s1 ≤ 1) (h20 : 0 ≤ s2)
    (h21 : s2 ≤ 1) (h30 : 0 ≤ s3) (h31 : s3 ≤ 1) :
    (0 ≤ round2 (116 * labF ((s1 * 0.2126729 + s2 * 0.7151522 + s3 * 0.072175) / 1.0) - 16)
      ∧ round2 (116 * labF ((s1 * 0.2126729 + s2 * 0.7151522 + s3 * 0.072175) / 1.0) - 16) ≤ 100)
    ∧ (-128 ≤ round2 (500 * (labF ((s1 * 0.4124564 + s2 * 0.3575761 + s3 * 0.1804375) / 0.95047)
          - labF ((s1 * 0.2126729 + s2 * 0.7151522 + s3 * 0.072175) / 1.0)))
      ∧ round2 (500 * (labF ((s1 * 0.4124564 + s2 * 0.3575761 + s3 * 0.1804375) / 0.95047)
          - labF ((s1 * 0.2126729 + s2 * 0.7151522 + s3 * 0.072175) / 1.0))) ≤ 127)
    ∧ (-128 ≤ round2 (200 * (labF ((s1 * 0.2126729 + s2 * 0.7151522 + s3 * 0.072175) / 1.0)
          - labF ((s1 * 0.0193339 + s2 * 0.119192 + s3 * 0.9503041) / 1.08883)))
      ∧ round2 (200 * (labF ((s1 * 0.2126729 + s2 * 0.7151522 + s3 * 0.072175) / 1.0)
          - labF ((s1 * 0.0193339 + s2 * 0.119192 + s3 * 0.9503041) / 1.08883))) ≤ 127) := by
  have hy0 : 0 ≤ (s1 * 0.2126729 + s2 * 0.7151522 + s3 * 0.072175) / 1.0 := by positivity
  have hy1 : (s1 * 0.2126729 + s2 * 0.7151522 + s3 * 0.072175) / 1.0 ≤ 1.0000001 := by
    rw [div_le_iff₀ (by norm_num)]
    linarith
  have hfy_lo := labF_ge hy0
  have hfy_hi := labF_le hy0 hy1
  have hau := aRaw_le s1 s2 s3 h10 h11 h20 h21 h30 h31
  have hal := aRaw_ge s1 s2 s3 h10 h11 h20 h21 h30 h31
  have hbu := bRaw_le s1 s2 s3 h10 h11 h20 h21 h30 h31
  have hbl := bRaw_ge s1 s2 s3 h10 h11 h20 h21 h30 h31
  refine ⟨⟨?_, ?_⟩, ⟨?_, ?_⟩, ⟨?_, ?_⟩⟩
  · exact le_trans (by norm_num : (0 : ℝ) ≤ ((0 : ℤ) : ℝ) / 100)
      (le_round2 (n := 0) (by push_cast; linarith))
  · exact le_trans (round2_le (n := 10000) (by push_cast; linarith)) (by norm_num)
  · exact le_trans (by norm_num : (-128 : ℝ) ≤ ((-12800 : ℤ) : ℝ) / 100)
      (le_round2 (n := -12800) (by push_cast; linarith))
  · exact le_trans (round2_le (n := 12700) (by push_cast; linarith)) (by norm_num)
  · exact le_trans (by norm_num : (-128 : ℝ) ≤ ((-12800 : ℤ) : ℝ) / 100)
      (le_round2 (n := -12800) (by push_cast; linarith))
  · exact le_trans (round2_le (n := 12700) (by push_cast; linarith)) (by norm_num)

/-- The Lab triple of any RGB color with real channels in `[0, 255]` has
`L` in `[0, 100]` and `a`, `b` in `[-128, 127]`. -/
lemma rgbToLab_bounds (r g b : ℝ) (hr0 : 0 ≤ r) (hr1 : r ≤ 255) (hg0 : 0 ≤ g)
    (hg1 : g ≤ 255) (hb0 : 0 ≤ b) (hb1 : b ≤ 255) :
    (0 ≤ (rgbToLab r g b).1 ∧ (rgbToLab r g b).1 ≤ 100)
    ∧ (-128 ≤ (rgbToLab r g b).2.1 ∧ (rgbToLab r g b).2.1 ≤ 127)
    ∧ (-128 ≤ (rgbToLab r g b).2.2 ∧ (rgbToLab r g b).2.2 ≤ 127) := by
  have hr := srgbLin_mem (c := r / 255) (div_nonneg hr0 (by norm_num))
    (by rw [div_le_one (by norm_num)]; linarith)
  have hg := srgbLin_mem (c := g / 255) (div_nonneg hg0 (by norm_num))
    (by rw [div_le_one (by norm_num)]; linarith)
  have hb := srgbLin_mem (c := b / 255) (div_nonneg hb0 (by norm_num))
    (by rw [div_le_one (by norm_num)]; linarith)
  simpa [rgbToLab] using
    labTriple_bounds (srgbLin (r / 255)) (srgbLin (g / 255)) (srgbLin (b / 255))
      hr.1 hr.2 hg.1 hg.2 hb.1 hb.2

lemma normalizeLab_mem_unit {L a b v : ℝ} (hL0 : 0 ≤ L) (hL1 : L ≤ 100)
    (ha0 : -128 ≤ a) (ha1 : a ≤ 127) (hb0 : -128 ≤ b) (hb1 : b ≤ 127)
    (hv : v ∈ normalizeLab (L, a, b)) : 0 ≤ v ∧ v ≤ 1 := by
  simp only [normalizeLab, List.mem_cons, List.not_mem_nil, or_false] at hv
  rcases hv with rfl | rfl | rfl
  · exact ⟨div_nonneg hL0 (by norm_num), (div_le_one (by norm_num)).mpr (by linarith)⟩
  · exact ⟨div_nonneg (by linarith) (by norm_num), (div_le_one (by norm_num)).mpr (by linarith)⟩
  · exact ⟨div_nonneg (by linarith) (by norm_num), (div_le_one (by norm_num)).mpr (by linarith)⟩

/-- C3: for every palette of at most 5 swatches with integer RGB channels at
most 255, `buildColorVector` yields exactly 15 reals, each in `[0, 1]`, and
a 3-swatch palette ends with the normalized neutral-gray triple twice. -/
theorem buildColorVector_unit_interval (sw : List Swatch) (hlen : sw.length ≤ 5)
    (hch : ∀ s ∈ sw, s.rgb.1 ≤ 255 ∧ s.rgb.2.1 ≤ 255 ∧ s.rgb.2.2 ≤ 255) :
    (buildColorVector sw).length = 15
    ∧ (∀ v ∈ buildColorVector sw, 0 ≤ v ∧ v ≤ 1)
    ∧ (sw.length = 3 → (buildColorVector sw).drop 9
        = normalizeLab GRAY_LAB ++ normalizeLab GRAY_LAB) := by
  refine ⟨buildColorVector_length sw, ?_, ?_⟩
  · intro v hv
    simp only [buildColorVector] at hv
    rw [List.mem_flatMap] at hv
    obtain ⟨p, hp, hvp⟩ := hv
    have hp2 := List.mem_of_mem_take hp
    rw [List.mem_append] at hp2
    rcases hp2 with hp2 | hp2
    · rw [List.mem_map] at hp2
      obtain ⟨s, hs, rfl⟩ := hp2
      obtain ⟨hcr, hcg, hcb⟩ := hch s hs
      have hbp := rgbToLab_bounds (s.rgb.1 : ℝ) (s.rgb.2.1 : ℝ) (s.rgb.2.2 : ℝ)
        (Nat.cast_nonneg _) (by exact_mod_cast hcr) (Nat.cast_nonneg _)
        (by exact_mod_cast hcg) (Nat.cast_nonneg _) (by exact_mod_cast hcb)
      rcases htrip : rgbToLab (s.rgb.1 : ℝ) (s.rgb.2.1 : ℝ) (s.rgb.2.2 : ℝ) with ⟨L, a2, b2⟩
      rw [htrip] at hvp hbp
      simp only at hbp
      exact normalizeLab_mem_unit hbp.1.1 hbp.1.2 hbp.2.1.1 hbp.2.1.2 hbp.2.2.1 hbp.2.2.2 hvp
    · have hpg := List.eq_of_mem_replicate hp2
      subst hpg
      refine normalizeLab_mem_unit ?_ ?_ ?_ ?_ ?_ ?_ hvp <;> norm_num [GRAY_LAB]
  · intro h3
    obtain ⟨a, b, c, rfl⟩ : ∃ a b c, sw = [a, b, c] := by
      match sw, h3 with
      | [a, b, c], _ => exact ⟨a, b, c, rfl⟩
    have hdrop : ∀ (p q r : ℝ × ℝ × ℝ) (rest : List ℝ),
        (normalizeLab p ++ (normalizeLab q ++ (normalizeLab r ++ rest))).drop 9 = rest := by
      intro p q r rest
      rcases p with ⟨p1, p2, p3⟩
      rcases q with ⟨q1, q2, q3⟩
      rcases r with ⟨r1, r2, r3⟩
      rfl
    simp only [buildColorVector, List.map_cons, List.map_nil, List.length_cons,
      List.length_nil, show (5 : ℕ) - (0 + 1 + 1 + 1) = 2 from rfl, List.replicate_succ,
      List.replicate_zero, List.cons_append, List.nil_append]
    rw [List.take_of_length_le (by norm_num)]
    simp only [List.flatMap_cons, List.flatMap_nil, List.append_nil]
    rw [hdrop]

/-- Witness for C3: the vector of a concrete 3-swatch palette (red, blue,
black) has length 15 and its last 6 entries are the normalized gray triple
twice. -/
theorem buildColorVector_unit_interval_witness :
    (buildColorVector [⟨"#ff0000", (255, 0, 0), 800⟩, ⟨"#0000ff", (0, 0, 255), 200⟩,
        ⟨"#000000", (0, 0, 0), 100⟩]).length = 15
    ∧ (buildColorVector [⟨"#ff0000", (255, 0, 0), 800⟩, ⟨"#0000ff", (0, 0, 255), 200⟩,
        ⟨"#000000", (0, 0, 0), 100⟩]).drop 9
      = normalizeLab GRAY_LAB ++ normalizeLab GRAY_LAB := by
  have h := buildColorVector_unit_interval
    [⟨"#ff0000", (255, 0, 0), 800⟩, ⟨"#0000ff", (0, 0, 255), 200⟩,
      ⟨"#000000", (0, 0, 0), 100⟩] (by norm_num)
    (by intro s hs; fin_cases hs <;> refine ⟨?_, ?_, ?_⟩ <;> norm_num)
  exact ⟨h.1, h.2.2 rfl⟩

/-! ### C4: end-to-end scenario A — red and blue make a colorful palette -/

lemma srgbLin_one : srgbLin 1 = 1 := by
  rw [srgbLin, if_pos (by norm_num), show ((1 : ℝ) + 0.055) / 1.055 = 1 by norm_num,
    Real.one_rpow]

lemma srgbLin_zero : srgbLin 0 = 0 := by
  rw [srgbLin, if_neg (by norm_num)]
  norm_num

lemma rgbToLab_red : rgbToLab 255 0 0 = (5324 / 100, 8009 / 100, 6720 / 100) := by
  have h1 : srgbLin ((255 : ℝ) / 255) = 1 := by
    rw [show ((255 : ℝ) / 255) = 1 by norm_num, srgbLin_one]
  have h0 : srgbLin ((0 : ℝ) / 255) = 0 := by
    rw [show ((0 : ℝ) / 255) = (0 : ℝ) by norm_num, srgbLin_zero]
  simp only [rgbToLab, h1, h0]
  rw [show ((1 : ℝ) * 0.4124564 + 0 * 0.3575761 + 0 * 0.1804375) / 0.95047
      = 1031141 / 2376175 by norm_num,
    show ((1 : ℝ) * 0.2126729 + 0 * 0.7151522 + 0 * 0.072175) / 1.0
      = 2126729 / 10000000 by norm_num,
    show ((1 : ℝ) * 0.0193339 + 0 * 0.119192 + 0 * 0.9503041) / 1.08883
      = 193339 / 10888300 by norm_num,
    labF_of_pos (by norm_num), labF_of_pos (by norm_num), labF_of_pos (by norm_num)]
  have hfx1 : (757088316 / 1000000000 : ℝ) ≤ (1031141 / 2376175 : ℝ) ^ ((1 : ℝ) / 3) :=
    le_cbrt (by norm_num) (by norm_num)
  have hfx2 : ((1031141 / 2376175 : ℝ)) ^ ((1 : ℝ) / 3) < (757088317 / 1000000000 : ℝ) :=
    cbrt_lt (by norm_num) (by norm_num) (by norm_num)
  have hfy1 : (596903397 / 1000000000 : ℝ) ≤ (2126729 / 10000000 : ℝ) ^ ((1 : ℝ) / 3) :=
    le_cbrt (by norm_num) (by norm_num)
  have hfy2 : ((2126729 / 10000000 : ℝ)) ^ ((1 : ℝ) / 3) < (596903398 / 1000000000 : ℝ) :=
    cbrt_lt (by norm_num) (by norm_num) (by norm_num)
  have hfz1 : (260887415 / 1000000000 : ℝ) ≤ (193339 / 10888300 : ℝ) ^ ((1 : ℝ) / 3) :=
    le_cbrt (by norm_num) (by norm_num)
  have hfz2 : ((193339 / 10888300 : ℝ)) ^ ((1 : ℝ) / 3) < (260887416 / 1000000000 : ℝ) :=
    cbrt_lt (by norm_num) (by norm_num) (by norm_num)
  rw [Prod.mk.injEq, Prod.mk.injEq]
  refine ⟨?_, ?_, ?_⟩
  · have hL : jsRound ((116 * (2126729 / 10000000 : ℝ) ^ ((1 : ℝ) / 3) - 16) * 100) = 5324 := by
      rw [jsRound]
      refine Int.floor_eq_iff.mpr ⟨by push_cast; linarith, by push_cast; linarith⟩
    rw [round2, hL]
    norm_num
  · have hA : jsRound (500 * ((1031141 / 2376175 : ℝ) ^ ((1 : ℝ) / 3)
        - (2126729 / 10000000 : ℝ) ^ ((1 : ℝ) / 3)) * 100) = 8009 := by
      rw [jsRound]
      refine Int.floor_eq_iff.mpr ⟨by push_cast; linarith, by push_cast; linarith⟩
    rw [round2, hA]
    norm_num
  · have hB : jsRound (200 * ((2126729 / 10000000 : ℝ) ^ ((1 : ℝ) / 3)
        - (193339 / 10888300 : ℝ) ^ ((1 : ℝ) / 3)) * 100) = 6720 := by
      rw [jsRound]
      refine Int.floor_eq_iff.mpr ⟨by push_cast; linarith, by push_cast; linarith⟩
    rw [round2, hB]
    norm_num

lemma rgbToLab_blue : rgbToLab 0 0 255 = (3230 / 100, 7919 / 100, -10786 / 100) := by
  have h1 : srgbLin ((255 : ℝ) / 255) = 1 := by
    rw [show ((255 : ℝ) / 255) = 1 by norm_num, srgbLin_one]
  have h0 : srgbLin ((0 : ℝ) / 255) = 0 := by
    rw [show ((0 : ℝ) / 255) = (0 : ℝ) by norm_num, srgbLin_zero]
  simp only [rgbToLab, h1, h0]
  rw [show ((0 : ℝ) * 0.4124564 + 0 * 0.3575761 + 1 * 0.1804375) / 0.95047
      = 72175 / 380188 by norm_num,
    show ((0 : ℝ) * 0.2126729 + 0 * 0.7151522 + 1 * 0.072175) / 1.0
      = 2887 / 40000 by norm_num,
    show ((0 : ℝ) * 0.0193339 + 0 * 0.119192 + 1 * 0.9503041) / 1.08883
      = 9503041 / 10888300 by norm_num,
    labF_of_pos (by norm_num), labF_of_pos (by norm_num), labF_of_pos (by norm_num)]
  have hfx1 : (574728582 / 1000000000 : ℝ) ≤ (72175 / 380188 : ℝ) ^ ((1 : ℝ) / 3) :=
    le_cbrt (by norm_num) (by norm_num)
  have hfx2 : ((72175 / 380188 : ℝ)) ^ ((1 : ℝ) / 3) < (574728583 / 1000000000 : ℝ) :=
    cbrt_lt (by norm_num) (by norm_num) (by norm_num)
  have hfy1 : (416353542 / 1000000000 : ℝ) ≤ (2887 / 40000 : ℝ) ^ ((1 : ℝ) / 3) :=
    le_cbrt (by norm_num) (by norm_num)
  have hfy2 : ((2887 / 40000 : ℝ)) ^ ((1 : ℝ) / 3) < (416353543 / 1000000000 : ℝ) :=
    cbrt_lt (by norm_num) (by norm_num) (by norm_num)
  have hfz1 : (955654351 / 1000000000 : ℝ) ≤ (9503041 / 10888300 : ℝ) ^ ((1 : ℝ) / 3) :=
    le_cbrt (by norm_num) (by norm_num)
  have hfz2 : ((9503041 / 10888300 : ℝ)) ^ ((1 : ℝ) / 3) < (955654352 / 1000000000 : ℝ) :=
    cbrt_lt (by norm_num) (by norm_num) (by norm_num)
  rw [Prod.mk.injEq, Prod.mk.injEq]
  refine ⟨?_, ?_, ?_⟩
  · have hL : jsRound ((116 * (2887 / 40000 : ℝ) ^ ((1 : ℝ) / 3) - 16) * 100) = 3230 := by
      rw [jsRound]
      refine Int.floor_eq_iff.mpr ⟨by push_cast; linarith, by push_cast; linarith⟩
    rw [round2, hL]
    norm_num
  · have hA : jsRound (500 * ((72175 / 380188 : ℝ) ^ ((1 : ℝ) / 3)
        - (2887 / 40000 : ℝ) ^ ((1 : ℝ) / 3)) * 100) = 7919 := by
      rw [jsRound]
      refine Int.floor_eq_iff.mpr ⟨by push_cast; linarith, by push_cast; linarith⟩
    rw [round2, hA]
    norm_num
  · have hB : jsRound (200 * ((2887 / 40000 : ℝ) ^ ((1 : ℝ) / 3)
        - (9503041 / 10888300 : ℝ) ^ ((1 : ℝ) / 3)) * 100) = -10786 := by
      rw [jsRound]
      refine Int.floor_eq_iff.mpr ⟨by push_cast; linarith, by push_cast; linarith⟩
    rw [round2, hB]
    norm_num

lemma scenarioA_vector : buildColorVector scenarioASwatches
    = [1331 / 2500, 20809 / 25500, 976 / 1275, 323 / 1000, 20719 / 25500, 1007 / 12750,
      1 / 2, 128 / 255, 128 / 255, 1 / 2, 128 / 255, 128 / 255, 1 / 2, 128 / 255, 128 / 255] := by
  have hred : rgbToLab (((255 : ℕ) : ℝ)) (((0 : ℕ) : ℝ)) (((0 : ℕ) : ℝ))
      = (5324 / 100, 8009 / 100, 6720 / 100) := by
    push_cast
    exact rgbToLab_red
  have hblue : rgbToLab (((0 : ℕ) : ℝ)) (((0 : ℕ) : ℝ)) (((255 : ℕ) : ℝ))
      = (3230 / 100, 7919 / 100, -10786 / 100) := by
    push_cast
    exact rgbToLab_blue
  simp only [scenarioASwatches, buildColorVector, List.map_cons, List.map_nil,
    List.length_cons, List.length_nil, hred, hblue,
    show (5 : ℕ) - (0 + 1 + 1) = 3 from rfl, List.replicate_succ, List.replicate_zero,
    List.cons_append, List.nil_append]
  rw [List.take_of_length_le (by norm_num)]
  simp only [List.flatMap_cons, List.flatMap_nil, List.append_nil, normalizeLab, GRAY_LAB,
    List.cons_append, List.nil_append]
  norm_num

lemma scenarioA_colorful :
    checkIsColorful scenarioASwatches (buildColorVector scenarioASwatches) = true := by
  rw [scenarioA_vector]
  show checkIsColorful
    [⟨"#ff0000", (255, 0, 0), 800⟩, ⟨"#0000ff", (0, 0, 255), 200⟩] _ = true
  rw [checkIsColorful]
  rw [if_neg (by norm_num), if_neg (by norm_num)]
  rw [decide_eq_true_eq]
  refine Real.le_sqrt_of_sq_le ?_
  norm_num

/-- C4: on the concrete palette `[red(population 800), blue(population 200)]`
the distinctiveness check succeeds: 2 swatches, top population at least the
minimum threshold, and the standard deviation of the 15-d vector at least
0.08. -/
theorem scenarioA_isColorful :
    scenarioASwatches.length = 2
    ∧ 10 ≤ ((scenarioASwatches.map Swatch.population).headD 0)
    ∧ checkIsColorful scenarioASwatches (buildColorVector scenarioASwatches) = true :=
  ⟨rfl, by norm_num [scenarioASwatches], scenarioA_colorful⟩

end

end Colorwalk
